import Mathlib

/-!
Verification of the two scripts of the SignLanguage repository:
`extract_frames.py` (a video-to-frame extractor) and
`train_improved_model.py` (a CNN training script).

The extractor is embedded as pure functions over an abstract model of the
file system: a video is the list of frames that `cv2.VideoCapture` decodes
(`none` when the capture fails to open), a letter folder is its name, its
directory entries and the number of `*.jpg` files already present in its
output subfolder, and the run result records the exit code, the directories
created, the open attempts, the image writes and the two running totals.

The training script is straight-line glue code; its library calls are
embedded as configuration records and an ordered list of effects.
-/

namespace SignLanguage

/-- A decoded video frame: pixel dimensions plus abstract pixel content. -/
structure Frame where
  width : Nat
  height : Nat
  data : Nat
deriving DecidableEq, Repr

/-- Constant `FRAME_INTERVAL = 5` in `extract_frames.py`. -/
def FRAME_INTERVAL : Nat := 5

/-- Constant `IMAGE_SIZE = 224` in `extract_frames.py`. -/
def IMAGE_SIZE : Nat := 224

/-- Constant `OUTPUT_FOLDER = "trainingdata"` in `extract_frames.py`. -/
def OUTPUT_FOLDER : String := "trainingdata"

/-- Constant `VIDEO_EXTENSIONS` in `extract_frames.py`. -/
def VIDEO_EXTENSIONS : List String :=
  [".mp4", ".avi", ".mov", ".mkv", ".MP4", ".AVI", ".MOV"]

/-- Model of `cv2.resize(frame, (size, size))`: the result has the requested
dimensions and keeps the (abstract) content of the input frame. -/
def resize (size : Nat) (f : Frame) : Frame :=
  { width := size, height := size, data := f.data }

/-- The character for a decimal digit `d`. -/
def digitChar (d : Nat) : Char := Char.ofNat (48 + d)

/-- Little-endian decimal digits of `n`, computed with explicit fuel so the
function is structurally recursive. -/
def decimalDigitsAux : Nat → Nat → List Nat
  | _, 0 => []
  | 0, _ + 1 => []
  | fuel + 1, n + 1 => (n + 1) % 10 :: decimalDigitsAux fuel ((n + 1) / 10)

/-- Little-endian decimal digits of `n`. -/
def decimalDigits (n : Nat) : List Nat := decimalDigitsAux n n

/-- Decimal digit string of `n` (empty for `0`; only used zero-padded). -/
def decimalStr (n : Nat) : String :=
  ⟨(decimalDigits n).reverse.map digitChar⟩

/-- Python `f"{n:04d}"`: decimal digits left-padded with `0` to width 4. -/
def pad4 (n : Nat) : String :=
  let s := decimalStr n
  if s.length < 4 then (⟨List.replicate (4 - s.length) '0'⟩ : String) ++ s else s

/-- The `img_filename` f-string of `extract_frames.py` (width-4 zero pad). -/
def imgFilename (n : Nat) : String := "img_" ++ pad4 n ++ ".jpg"

/-- Model of `os.path.join` on a POSIX system. -/
def joinPath (a b : String) : String := a ++ "/" ++ b

/-- One `cv2.imwrite` call: target directory, file name, written frame. -/
structure WriteEvent where
  dir : String
  filename : String
  frame : Frame
deriving DecidableEq, Repr

/-- A directory entry of a letter folder.  `decoded = some frames` when
`cv2.VideoCapture` opens the file and decodes `frames`; `decoded = none`
when `cap.isOpened()` is false. -/
structure VideoFile where
  name : String
  decoded : Option (List Frame)
deriving DecidableEq, Repr

/-- A `letter_folder.glob` pattern of the form `*ext` matches a name exactly when it ends with
`ext` (pathlib's `*` matches any, possibly empty, run of characters). -/
def matchesExt (name ext : String) : Bool :=
  name.data.drop (name.data.length - ext.data.length) == ext.data

/-- The `video_files` list: for each supported extension, the files of the
folder whose name matches `*ext`, in the source's extension order. -/
def videoFiles (files : List VideoFile) : List VideoFile :=
  (VIDEO_EXTENSIONS.map (fun ext => files.filter (fun f => matchesExt f.name ext))).flatten

/-- The `while True` read loop of `extract_frames.py` (lines 97-116).
`base` is `existing_count + frames_for_letter`, fixed for one video;
`fc` is `frame_count` and `saved` is `saved_count`.  Returns the list of
write events of this video, in order, together with the final
`saved_count`. -/
def readLoop (outputDir : String) (base : Nat) :
    List Frame → Nat → Nat → List WriteEvent × Nat
  | [], _, saved => ([], saved)
  | f :: rest, fc, saved =>
    if fc % FRAME_INTERVAL == 0 then
      let w : WriteEvent :=
        { dir := outputDir, filename := imgFilename (base + saved + 1),
          frame := resize IMAGE_SIZE f }
      let r := readLoop outputDir base rest (fc + 1) (saved + 1)
      (w :: r.1, r.2)
    else
      readLoop outputDir base rest (fc + 1) saved

/-- Result of the per-folder video loop: write events, attempted opens,
final `frames_for_letter`, and the number of videos counted in
`total_videos`. -/
structure VideosResult where
  writes : List WriteEvent
  opens : List String
  ffl : Nat
  videos : Nat
deriving DecidableEq, Repr

/-- The `for video_path in video_files` loop (lines 84-122).  A video that
fails to open is recorded as an attempted open and skipped; an opened video
runs the read loop from `frame_count = saved_count = 0`, then
`frames_for_letter += saved_count` and `total_videos += 1`. -/
def processVideos (outputDir : String) (existingCount : Nat) :
    List VideoFile → Nat → VideosResult
  | [], ffl => ⟨[], [], ffl, 0⟩
  | v :: rest, ffl =>
    match v.decoded with
    | none =>
      let r := processVideos outputDir existingCount rest ffl
      ⟨r.writes, v.name :: r.opens, r.ffl, r.videos⟩
    | some frames =>
      let body := readLoop outputDir (existingCount + ffl) frames 0 0
      let r := processVideos outputDir existingCount rest (ffl + body.2)
      ⟨body.1 ++ r.writes, v.name :: r.opens, r.ffl, r.videos + 1⟩

/-- A letter folder of the `Videos` directory: its name, its directory
entries, and the number of `*.jpg` files already in
`trainingdata/<name>` before the run (`existing_count`). -/
structure LetterFolder where
  name : String
  files : List VideoFile
  existingCount : Nat
deriving DecidableEq, Repr

/-- Result of processing one letter folder: directories created, write
events, attempted opens, the folder's `frames_for_letter` contribution to
`total_frames`, and its contribution to `total_videos`. -/
structure FolderResult where
  dirs : List String
  writes : List WriteEvent
  opens : List String
  frames : Nat
  videos : Nat
deriving DecidableEq, Repr

/-- The body of `for letter_folder in sorted(letter_folders)` (lines
61-127): a folder with no matching video file is skipped before its output
directory is created; otherwise the output directory is created,
`existing_count` is read, and the video loop runs with
`frames_for_letter = 0`. -/
def processFolder (folder : LetterFolder) : FolderResult :=
  let vfs := videoFiles folder.files
  if vfs.isEmpty then ⟨[], [], [], 0, 0⟩
  else
    let outputDir := joinPath OUTPUT_FOLDER folder.name
    let r := processVideos outputDir folder.existingCount vfs 0
    ⟨[outputDir], r.writes, r.opens, r.ffl, r.videos⟩

/-- Observable outcome of one run of `extract_frames.py`. -/
structure ExtractOutcome where
  exitCode : Nat
  dirsCreated : List String
  opens : List String
  writes : List WriteEvent
  totalFrames : Nat
  totalVideos : Nat
deriving DecidableEq, Repr

/-- The whole script: exit 1 with nothing done when `Videos` is missing;
otherwise `trainingdata` is created, and exit 1 follows when no letter
folder exists; otherwise the folders are processed in sorted order and the
totals accumulate. -/
def runExtractor (videoFolderExists : Bool) (folders : List LetterFolder) :
    ExtractOutcome :=
  match videoFolderExists with
  | false => ⟨1, [], [], [], 0, 0⟩
  | true =>
    if folders.isEmpty then ⟨1, [OUTPUT_FOLDER], [], [], 0, 0⟩
    else
      let results :=
        (folders.insertionSort (fun a b => a.name ≤ b.name)).map processFolder
      ⟨0, OUTPUT_FOLDER :: (results.map FolderResult.dirs).flatten,
        (results.map FolderResult.opens).flatten,
        (results.map FolderResult.writes).flatten,
        (results.map FolderResult.frames).sum,
        (results.map FolderResult.videos).sum⟩

/-! ### Helper lemmas about the read loop -/

theorem readLoop_map_frame (d : String) (b : Nat) (frames : List Frame) :
    ∀ fc saved, ((readLoop d b frames fc saved).1.map WriteEvent.frame =
      ((List.enumFrom fc frames).filter (fun p => p.1 % FRAME_INTERVAL == 0)).map
        (fun p => resize IMAGE_SIZE p.2)) := by
  induction frames with
  | nil => intro fc saved; rfl
  | cons f rest ih =>
    intro fc saved
    by_cases h : fc % FRAME_INTERVAL == 0
    · simp [readLoop, h, List.enumFrom, ih]
    · simp [readLoop, h, List.enumFrom, ih]

theorem readLoop_length (d : String) (b : Nat) (frames : List Frame) :
    ∀ fc saved, (readLoop d b frames fc saved).1.length =
      (fc + frames.length + FRAME_INTERVAL - 1) / FRAME_INTERVAL -
        (fc + FRAME_INTERVAL - 1) / FRAME_INTERVAL := by
  induction frames with
  | nil => intro fc saved; simp [readLoop]
  | cons f rest ih =>
    intro fc saved
    by_cases h : fc % 5 = 0
    · simp [readLoop, FRAME_INTERVAL, h, ih]
      omega
    · simp [readLoop, FRAME_INTERVAL, h, ih]
      omega

theorem readLoop_final_saved (d : String) (b : Nat) (frames : List Frame) :
    ∀ fc saved, (readLoop d b frames fc saved).2 =
      saved + (readLoop d b frames fc saved).1.length := by
  induction frames with
  | nil => intro fc saved; simp [readLoop]
  | cons f rest ih =>
    intro fc saved
    by_cases h : fc % FRAME_INTERVAL == 0
    · simp [readLoop, h, ih]; omega
    · simp [readLoop, h, ih]

/-- C1.  Fixed-stride sampling: over a decoded frame sequence the
extractor saves exactly the frames whose 0-based decode index is a multiple
of `FRAME_INTERVAL = 5`, in decode order, hence `⌈N/5⌉` frames. -/
theorem fixed_stride_sampling_c1 (d : String) (b : Nat) (frames : List Frame) :
    ((readLoop d b frames 0 0).1.map WriteEvent.frame =
      ((frames.enum).filter (fun p => p.1 % FRAME_INTERVAL == 0)).map
        (fun p => resize IMAGE_SIZE p.2)) ∧
    (readLoop d b frames 0 0).1.length =
      (frames.length + (FRAME_INTERVAL - 1)) / FRAME_INTERVAL := by
  refine ⟨readLoop_map_frame d b frames 0 0, ?_⟩
  have := readLoop_length d b frames 0 0
  simpa [FRAME_INTERVAL] using this

/-! ### Decimal rendering: a left inverse, giving injectivity of filenames -/

/-- Parse a run of decimal digit characters back into a number. -/
def parseDigits (l : List Char) : Nat :=
  l.foldl (fun acc c => 10 * acc + (c.toNat - 48)) 0

theorem parseDigits_replicate_zero (k : Nat) (l : List Char) :
    parseDigits (List.replicate k '0' ++ l) = parseDigits l := by
  induction k with
  | zero => rfl
  | succ k ih =>
    have h0 : (10 * 0 + ('0'.toNat - 48)) = 0 := by decide
    simpa [List.replicate_succ, parseDigits, h0] using ih

theorem digitChar_toNat {d : Nat} (hd : d < 10) : (digitChar d).toNat - 48 = d := by
  interval_cases d <;> decide

theorem foldr_eq_ofDigits (L : List Nat) :
    L.foldr (fun d acc => 10 * acc + d) 0 = Nat.ofDigits 10 L := by
  induction L with
  | nil => simp [Nat.ofDigits]
  | cons d L ih =>
    simp only [List.foldr_cons, ih, Nat.ofDigits_cons]
    ring

theorem decimalDigitsAux_eq_digits :
    ∀ fuel n, n ≤ fuel → decimalDigitsAux fuel n = Nat.digits 10 n := by
  intro fuel
  induction fuel with
  | zero =>
    intro n hn
    interval_cases n
    simp [decimalDigitsAux]
  | succ fuel ih =>
    intro n hn
    match n with
    | 0 => simp [decimalDigitsAux]
    | n + 1 =>
      rw [decimalDigitsAux, Nat.digits_def' (by norm_num : (1 : Nat) < 10) (Nat.succ_pos n),
        ih ((n + 1) / 10) (by omega)]

theorem decimalDigits_eq_digits (n : Nat) : decimalDigits n = Nat.digits 10 n :=
  decimalDigitsAux_eq_digits n n le_rfl

theorem parseDigits_decimalStr (n : Nat) : parseDigits (decimalStr n).data = n := by
  have hdata : (decimalStr n).data = ((Nat.digits 10 n).map digitChar).reverse := by
    simp [decimalStr, decimalDigits_eq_digits]
  rw [parseDigits, hdata, List.foldl_reverse, List.foldr_map]
  have hsame : ∀ L : List Nat, (∀ d ∈ L, d < 10) →
      L.foldr (fun d acc => 10 * acc + ((digitChar d).toNat - 48)) 0 =
        L.foldr (fun d acc => 10 * acc + d) 0 := by
    intro L
    induction L with
    | nil => intro _; rfl
    | cons d L ih =>
      intro hL
      have hd : d < 10 := hL d (List.mem_cons_self d L)
      simp only [List.foldr_cons, ih (fun x hx => hL x (List.mem_cons_of_mem d hx)),
        digitChar_toNat hd]
  rw [hsame (Nat.digits 10 n) (fun d hd => Nat.digits_lt_base (by norm_num) hd),
    foldr_eq_ofDigits]
  exact_mod_cast Nat.ofDigits_digits 10 n

theorem parseDigits_pad4 (n : Nat) : parseDigits (pad4 n).data = n := by
  unfold pad4
  by_cases h : (decimalStr n).length < 4
  · simp only [h, if_pos, String.data_append]
    rw [parseDigits_replicate_zero, parseDigits_decimalStr]
  · rw [if_neg h]
    exact parseDigits_decimalStr n

theorem pad4_inj {m n : Nat} (h : pad4 m = pad4 n) : m = n := by
  have := congrArg (fun s => parseDigits s.data) h
  simpa [parseDigits_pad4] using this

theorem imgFilename_inj {m n : Nat} (h : imgFilename m = imgFilename n) : m = n := by
  apply pad4_inj
  have hd := congrArg String.data h
  simp only [imgFilename, String.data_append] at hd
  apply String.ext
  simpa using hd

/-! ### The write events of one video: names, directory, frame origin -/

theorem readLoop_filenames (d : String) (b : Nat) (frames : List Frame) :
    ∀ fc saved, (readLoop d b frames fc saved).1.map WriteEvent.filename =
      (List.range (readLoop d b frames fc saved).1.length).map
        (fun k => imgFilename (b + saved + k + 1)) := by
  induction frames with
  | nil => intro fc saved; rfl
  | cons f rest ih =>
    intro fc saved
    by_cases h : fc % 5 = 0
    · simp only [readLoop, FRAME_INTERVAL, h, beq_self_eq_true, if_pos, List.map_cons,
        List.length_cons, List.range_succ_eq_map, List.map_map, List.cons.injEq]
      refine ⟨by simp, ?_⟩
      rw [ih]
      apply List.map_congr_left
      intro k _
      simp only [Function.comp_apply]
      congr 1
      omega
    · have hb : (fc % FRAME_INTERVAL == 0) = false := by
        simp [FRAME_INTERVAL, h]
      simp only [readLoop, hb, Bool.false_eq_true, if_false, ih]

theorem readLoop_dir (d : String) (b : Nat) (frames : List Frame) :
    ∀ fc saved w, w ∈ (readLoop d b frames fc saved).1 → w.dir = d := by
  induction frames with
  | nil => intro fc saved w hw; simp [readLoop] at hw
  | cons f rest ih =>
    intro fc saved w hw
    by_cases h : fc % 5 = 0
    · simp only [readLoop, FRAME_INTERVAL, h, beq_self_eq_true, if_pos,
        List.mem_cons] at hw
      rcases hw with hw | hw
      · rw [hw]
      · exact ih _ _ w hw
    · have hb : (fc % FRAME_INTERVAL == 0) = false := by
        simp [FRAME_INTERVAL, h]
      simp only [readLoop, hb, Bool.false_eq_true, if_false] at hw
      exact ih _ _ w hw

theorem readLoop_frame_src (d : String) (b : Nat) (frames : List Frame) :
    ∀ fc saved w, w ∈ (readLoop d b frames fc saved).1 →
      ∃ fr ∈ frames, w.frame = resize IMAGE_SIZE fr := by
  induction frames with
  | nil => intro fc saved w hw; simp [readLoop] at hw
  | cons f rest ih =>
    intro fc saved w hw
    by_cases h : fc % 5 = 0
    · simp only [readLoop, FRAME_INTERVAL, h, beq_self_eq_true, if_pos,
        List.mem_cons] at hw
      rcases hw with hw | hw
      · exact ⟨f, List.mem_cons_self f rest, by rw [hw]⟩
      · obtain ⟨fr, hfr, heq⟩ := ih _ _ w hw
        exact ⟨fr, List.mem_cons_of_mem f hfr, heq⟩
    · have hb : (fc % FRAME_INTERVAL == 0) = false := by
        simp [FRAME_INTERVAL, h]
      simp only [readLoop, hb, Bool.false_eq_true, if_false] at hw
      obtain ⟨fr, hfr, heq⟩ := ih _ _ w hw
      exact ⟨fr, List.mem_cons_of_mem f hfr, heq⟩

/-! ### The write events of one letter folder -/

theorem processVideos_filenames (d : String) (e : Nat) (vs : List VideoFile) :
    ∀ ffl,
      ((processVideos d e vs ffl).writes.map WriteEvent.filename =
        (List.range (processVideos d e vs ffl).writes.length).map
          (fun k => imgFilename (e + ffl + k + 1))) ∧
      (processVideos d e vs ffl).ffl = ffl + (processVideos d e vs ffl).writes.length := by
  induction vs with
  | nil => intro ffl; simp [processVideos]
  | cons v rest ih =>
    intro ffl
    cases hv : v.decoded with
    | none =>
      simpa [processVideos, hv] using ih ffl
    | some frames =>
      have hsaved := readLoop_final_saved d (e + ffl) frames 0 0
      obtain ⟨ihnames, ihffl⟩ :=
        ih (ffl + (readLoop d (e + ffl) frames 0 0).2)
      have h1 : (readLoop d (e + ffl) frames 0 0).1.map WriteEvent.filename =
          (List.range (readLoop d (e + ffl) frames 0 0).1.length).map
            (fun k => imgFilename (e + ffl + k + 1)) := by
        simpa using readLoop_filenames d (e + ffl) frames 0 0
      have h2 : (processVideos d e rest
            (ffl + (readLoop d (e + ffl) frames 0 0).2)).writes.map WriteEvent.filename =
          (List.range (processVideos d e rest
              (ffl + (readLoop d (e + ffl) frames 0 0).2)).writes.length).map
            ((fun k => imgFilename (e + ffl + k + 1)) ∘
              (fun x => (readLoop d (e + ffl) frames 0 0).1.length + x)) := by
        rw [ihnames]
        apply List.map_congr_left
        intro k _
        simp only [Function.comp_apply]
        congr 1
        omega
      simp only [processVideos, hv, List.map_append, List.length_append]
      constructor
      · rw [List.range_add, List.map_append, List.map_map, h1, h2]
      · rw [ihffl]
        omega

theorem processVideos_dir (d : String) (e : Nat) (vs : List VideoFile) :
    ∀ ffl w, w ∈ (processVideos d e vs ffl).writes → w.dir = d := by
  induction vs with
  | nil => intro ffl w hw; simp [processVideos] at hw
  | cons v rest ih =>
    intro ffl w hw
    cases hv : v.decoded with
    | none =>
      simp only [processVideos, hv] at hw
      exact ih _ w hw
    | some frames =>
      simp only [processVideos, hv, List.mem_append] at hw
      rcases hw with hw | hw
      · exact readLoop_dir d (e + ffl) frames 0 0 w hw
      · exact ih _ w hw

theorem processVideos_frame_src (d : String) (e : Nat) (vs : List VideoFile) :
    ∀ ffl w, w ∈ (processVideos d e vs ffl).writes →
      ∃ fr, w.frame = resize IMAGE_SIZE fr := by
  induction vs with
  | nil => intro ffl w hw; simp [processVideos] at hw
  | cons v rest ih =>
    intro ffl w hw
    cases hv : v.decoded with
    | none =>
      simp only [processVideos, hv] at hw
      exact ih _ w hw
    | some frames =>
      simp only [processVideos, hv, List.mem_append] at hw
      rcases hw with hw | hw
      · obtain ⟨fr, _, heq⟩ := readLoop_frame_src d (e + ffl) frames 0 0 w hw
        exact ⟨fr, heq⟩
      · exact ih _ w hw

theorem joinPath_right_inj {a b c : String} (h : joinPath a b = joinPath a c) :
    b = c := by
  have hd := congrArg String.data h
  simp only [joinPath, String.data_append] at hd
  apply String.ext
  simpa using hd

theorem processFolder_filenames (folder : LetterFolder) :
    (processFolder folder).writes.map WriteEvent.filename =
      (List.range (processFolder folder).writes.length).map
        (fun k => imgFilename (folder.existingCount + k + 1)) := by
  unfold processFolder
  by_cases h : (videoFiles folder.files).isEmpty
  · simp [h]
  · rw [if_neg h]
    simpa using (processVideos_filenames (joinPath OUTPUT_FOLDER folder.name)
      folder.existingCount (videoFiles folder.files) 0).1

theorem processFolder_dir (folder : LetterFolder) (w : WriteEvent)
    (hw : w ∈ (processFolder folder).writes) :
    w.dir = joinPath OUTPUT_FOLDER folder.name := by
  unfold processFolder at hw
  by_cases h : (videoFiles folder.files).isEmpty
  · simp [h] at hw
  · rw [if_neg h] at hw
    exact processVideos_dir _ _ _ _ w hw

theorem processFolder_frame_src (folder : LetterFolder) (w : WriteEvent)
    (hw : w ∈ (processFolder folder).writes) :
    ∃ fr, w.frame = resize IMAGE_SIZE fr := by
  unfold processFolder at hw
  by_cases h : (videoFiles folder.files).isEmpty
  · simp [h] at hw
  · rw [if_neg h] at hw
    exact processVideos_frame_src _ _ _ _ w hw

theorem processFolder_pairs_nodup (folder : LetterFolder) :
    ((processFolder folder).writes.map (fun w => (w.dir, w.filename))).Nodup := by
  have hpairs : (processFolder folder).writes.map (fun w => (w.dir, w.filename)) =
      ((processFolder folder).writes.map WriteEvent.filename).map
        (fun s => (joinPath OUTPUT_FOLDER folder.name, s)) := by
    rw [List.map_map]
    apply List.map_congr_left
    intro w hw
    simp only [Function.comp_apply]
    rw [processFolder_dir folder w hw]
  rw [hpairs, processFolder_filenames]
  apply List.Nodup.map
  · intro x y hxy
    simpa using hxy
  · apply List.Nodup.map
    · intro x y hxy
      have := imgFilename_inj hxy
      omega
    · exact List.nodup_range _

theorem runExtractor_writes_mem (ex : Bool) (folders : List LetterFolder)
    (w : WriteEvent) (hw : w ∈ (runExtractor ex folders).writes) :
    ∃ folder ∈ folders, w ∈ (processFolder folder).writes := by
  cases ex with
  | false => simp [runExtractor] at hw
  | true =>
    by_cases h : folders.isEmpty
    · simp [runExtractor, h] at hw
    · simp only [runExtractor] at hw
      rw [if_neg h] at hw
      simp only [List.mem_flatten, List.mem_map] at hw
      obtain ⟨l, ⟨r, ⟨folder, hfolder, rfl⟩, rfl⟩, hwl⟩ := hw
      exact ⟨folder,
        (List.perm_insertionSort (fun a b => a.name ≤ b.name) folders).subset hfolder,
        hwl⟩

theorem runExtractor_pairs_nodup (folders : List LetterFolder)
    (hnames : (folders.map LetterFolder.name).Nodup) :
    ((runExtractor true folders).writes.map (fun w => (w.dir, w.filename))).Nodup := by
  by_cases h : folders.isEmpty
  · simp [runExtractor, h]
  · simp only [runExtractor]
    rw [if_neg h]
    simp only [List.map_flatten, List.map_map]
    rw [List.nodup_flatten]
    constructor
    · intro l hl
      simp only [List.mem_map] at hl
      obtain ⟨folder, hfolder, rfl⟩ := hl
      exact processFolder_pairs_nodup folder
    · rw [List.pairwise_map]
      have hperm := (List.perm_insertionSort (fun a b => a.name ≤ b.name) folders).map
        LetterFolder.name
      have hsorted : ((folders.insertionSort
          (fun a b => a.name ≤ b.name)).map LetterFolder.name).Nodup :=
        hperm.nodup_iff.mpr hnames
      rw [List.Nodup, List.pairwise_map] at hsorted
      refine hsorted.imp ?_
      intro a b hne x hxa hxb
      simp only [Function.comp_apply, List.mem_map] at hxa hxb
      obtain ⟨wa, hwa, rfl⟩ := hxa
      obtain ⟨wb, hwb, hab⟩ := hxb
      have hda := processFolder_dir a wa hwa
      have hdb := processFolder_dir b wb hwb
      apply hne
      apply joinPath_right_inj (a := OUTPUT_FOLDER)
      rw [← hda, ← hdb]
      exact (congrArg Prod.fst hab).symm

/-- Sample inputs used by the witnesses below. -/
def sampleVideo : VideoFile :=
  ⟨"a.mp4", some [⟨640, 480, 7⟩, ⟨640, 480, 8⟩, ⟨640, 480, 9⟩,
    ⟨640, 480, 10⟩, ⟨640, 480, 11⟩, ⟨640, 480, 12⟩]⟩

/-- A letter folder named "A" holding one six-frame video, with two `*.jpg`
files already present in its output subfolder. -/
def sampleFolder : LetterFolder := ⟨"A", [sampleVideo], 2⟩

/-- C2.  Sequential file naming: within one letter folder the saved images
are named `img_%04d.jpg` with consecutive indices starting at
`existing_count + 1` across all of the folder's videos, and (given distinct
folder names) no two writes of one run target the same path. -/
theorem sequential_naming_c2 (folder : LetterFolder) (folders : List LetterFolder)
    (hnames : (folders.map LetterFolder.name).Nodup) :
    ((processFolder folder).writes.map WriteEvent.filename =
      (List.range (processFolder folder).writes.length).map
        (fun k => imgFilename (folder.existingCount + k + 1))) ∧
    ((runExtractor true folders).writes.map (fun w => (w.dir, w.filename))).Nodup :=
  ⟨processFolder_filenames folder, runExtractor_pairs_nodup folders hnames⟩

theorem sequential_naming_c2_witness :
    (([sampleFolder].map LetterFolder.name).Nodup) ∧
    (((processFolder sampleFolder).writes.map WriteEvent.filename =
      (List.range (processFolder sampleFolder).writes.length).map
        (fun k => imgFilename (sampleFolder.existingCount + k + 1))) ∧
    ((runExtractor true [sampleFolder]).writes.map
      (fun w => (w.dir, w.filename))).Nodup) :=
  ⟨by decide, sequential_naming_c2 sampleFolder [sampleFolder] (by decide)⟩

/-- C3.  Labeled dataset: every frame extracted from a video of letter
folder `S` is written into `OUTPUT_FOLDER/S`, so the enclosing directory of
every saved image names the source video's parent folder. -/
theorem labeled_dataset_c3 (folder : LetterFolder) (w : WriteEvent)
    (hw : w ∈ (processFolder folder).writes) :
    w.dir = joinPath OUTPUT_FOLDER folder.name :=
  processFolder_dir folder w hw

theorem labeled_dataset_c3_witness :
    ((⟨"trainingdata/A", "img_0003.jpg", ⟨224, 224, 7⟩⟩ : WriteEvent) ∈
      (processFolder sampleFolder).writes) ∧
    (⟨"trainingdata/A", "img_0003.jpg", ⟨224, 224, 7⟩⟩ : WriteEvent).dir =
      joinPath OUTPUT_FOLDER sampleFolder.name :=
  ⟨by decide, labeled_dataset_c3 sampleFolder _ (by decide)⟩

/-- C4.  Resizing: every frame the extractor writes has been passed through
`cv2.resize` to exactly `IMAGE_SIZE × IMAGE_SIZE` (224 × 224) pixels. -/
theorem resized_c4 (ex : Bool) (folders : List LetterFolder) (w : WriteEvent)
    (hw : w ∈ (runExtractor ex folders).writes) :
    w.frame.width = IMAGE_SIZE ∧ w.frame.height = IMAGE_SIZE ∧
      ∃ fr, w.frame = resize IMAGE_SIZE fr := by
  obtain ⟨folder, _, hwf⟩ := runExtractor_writes_mem ex folders w hw
  obtain ⟨fr, hfr⟩ := processFolder_frame_src folder w hwf
  exact ⟨by rw [hfr]; rfl, by rw [hfr]; rfl, fr, hfr⟩

theorem resized_c4_witness :
    ((⟨"trainingdata/A", "img_0003.jpg", ⟨224, 224, 7⟩⟩ : WriteEvent) ∈
      (runExtractor true [sampleFolder]).writes) ∧
    ((⟨"trainingdata/A", "img_0003.jpg", ⟨224, 224, 7⟩⟩ : WriteEvent).frame.width
        = IMAGE_SIZE ∧
      (⟨"trainingdata/A", "img_0003.jpg", ⟨224, 224, 7⟩⟩ : WriteEvent).frame.height
        = IMAGE_SIZE ∧
      ∃ fr, (⟨"trainingdata/A", "img_0003.jpg", ⟨224, 224, 7⟩⟩ :
        WriteEvent).frame = resize IMAGE_SIZE fr) :=
  ⟨by decide, resized_c4 true [sampleFolder] _ (by decide)⟩

/-- C9.  Error exits: without a `Videos` directory the script exits with
status 1 before creating any directory, attempting any open or writing any
file; with `Videos` present but holding no subdirectory it exits with
status 1 having created only the empty `trainingdata` directory. -/
theorem error_exits_c9 (folders : List LetterFolder) :
    runExtractor false folders = ⟨1, [], [], [], 0, 0⟩ ∧
    runExtractor true [] = ⟨1, [OUTPUT_FOLDER], [], [], 0, 0⟩ :=
  ⟨rfl, rfl⟩

/-! ### Counting lemmas for C10 -/

theorem processVideos_videos (d : String) (e : Nat) (vs : List VideoFile) :
    ∀ ffl, (processVideos d e vs ffl).videos =
      vs.countP (fun v => v.decoded.isSome) := by
  induction vs with
  | nil => intro ffl; simp [processVideos]
  | cons v rest ih =>
    intro ffl
    cases hv : v.decoded with
    | none => simp [processVideos, hv, List.countP_cons, ih]
    | some frames => simp [processVideos, hv, List.countP_cons, ih]

theorem processFolder_videos (folder : LetterFolder) :
    (processFolder folder).videos =
      (videoFiles folder.files).countP (fun v => v.decoded.isSome) := by
  unfold processFolder
  by_cases h : (videoFiles folder.files).isEmpty
  · rw [List.isEmpty_iff] at h
    simp [h]
  · rw [if_neg h]
    exact processVideos_videos _ _ _ 0

theorem processFolder_frames (folder : LetterFolder) :
    (processFolder folder).frames = (processFolder folder).writes.length := by
  unfold processFolder
  by_cases h : (videoFiles folder.files).isEmpty
  · simp [h]
  · rw [if_neg h]
    simpa using (processVideos_filenames (joinPath OUTPUT_FOLDER folder.name)
      folder.existingCount (videoFiles folder.files) 0).2

/-- C10.  Skipping leaves state unchanged: a letter folder with no
supported video file is skipped entirely (no directory, no open, no write,
no count); a video that fails to open changes no write, no
`frames_for_letter` and no video count; `total_videos` counts exactly the
successfully opened videos and `total_frames` counts exactly the writes. -/
theorem skipping_c10 :
    (∀ folder : LetterFolder, videoFiles folder.files = [] →
      processFolder folder = ⟨[], [], [], 0, 0⟩) ∧
    (∀ (d : String) (e : Nat) (v : VideoFile) (rest : List VideoFile) (ffl : Nat),
      v.decoded = none →
        (processVideos d e (v :: rest) ffl).writes =
          (processVideos d e rest ffl).writes ∧
        (processVideos d e (v :: rest) ffl).ffl =
          (processVideos d e rest ffl).ffl ∧
        (processVideos d e (v :: rest) ffl).videos =
          (processVideos d e rest ffl).videos) ∧
    (∀ folders : List LetterFolder,
      (runExtractor true folders).totalVideos =
        (folders.map
          (fun f => (videoFiles f.files).countP (fun v => v.decoded.isSome))).sum ∧
      (runExtractor true folders).totalFrames =
        (runExtractor true folders).writes.length) := by
  refine ⟨?_, ?_, ?_⟩
  · intro folder h
    simp [processFolder, h]
  · intro d e v rest ffl hv
    refine ⟨?_, ?_, ?_⟩ <;> simp [processVideos, hv]
  · intro folders
    by_cases h : folders.isEmpty
    · rw [List.isEmpty_iff] at h
      subst h
      exact ⟨rfl, rfl⟩
    · simp only [runExtractor]
      rw [if_neg h]
      constructor
      · have hcount : ∀ fs : List LetterFolder,
            ((fs.map processFolder).map FolderResult.videos).sum =
              (fs.map (fun f =>
                (videoFiles f.files).countP (fun v => v.decoded.isSome))).sum := by
          intro fs
          rw [List.map_map]
          congr 1
          apply List.map_congr_left
          intro f _
          exact processFolder_videos f
        have hperm := (List.perm_insertionSort (fun a b => a.name ≤ b.name) folders).map
          (fun f => (videoFiles f.files).countP (fun v => v.decoded.isSome))
        calc ((((folders.insertionSort (fun a b => a.name ≤ b.name)).map
                processFolder).map FolderResult.videos).sum)
            = (((folders.insertionSort (fun a b => a.name ≤ b.name)).map
                (fun f => (videoFiles f.files).countP
                  (fun v => v.decoded.isSome))).sum) := hcount _
          _ = _ := hperm.sum_eq
      · show ((((folders.insertionSort (fun a b => a.name ≤ b.name)).map
            processFolder).map FolderResult.frames).sum) =
          ((((folders.insertionSort (fun a b => a.name ≤ b.name)).map
            processFolder).map FolderResult.writes).flatten).length
        rw [List.length_flatten, List.map_map, List.map_map, List.map_map]
        congr 1
        apply List.map_congr_left
        intro f _
        simp only [Function.comp_apply]
        exact processFolder_frames f

theorem skipping_c10_witness :
    (videoFiles (⟨"B", [⟨"notes.txt", none⟩], 0⟩ : LetterFolder).files = []) ∧
    processFolder (⟨"B", [⟨"notes.txt", none⟩], 0⟩ : LetterFolder) =
      ⟨[], [], [], 0, 0⟩ :=
  ⟨by decide, skipping_c10.1 ⟨"B", [⟨"notes.txt", none⟩], 0⟩ (by decide)⟩

/-!
## The training script `train_improved_model.py`

The script is straight-line glue around Keras: every library call is
embedded as the configuration record it passes, and the run as the ordered
list of those calls.
-/

namespace Train

/-- Constant `TRAINING_DATA_DIR = "trainingdata"`. -/
def TRAINING_DATA_DIR : String := "trainingdata"

/-- Constant `IMAGE_SIZE = 32` of the training script. -/
def IMAGE_SIZE : Nat := 32

/-- Constant `BATCH_SIZE = 32`. -/
def BATCH_SIZE : Nat := 32

/-- Constant `EPOCHS = 50`. -/
def EPOCHS : Nat := 50

/-- Constant `LEARNING_RATE = 0.001`. -/
def LEARNING_RATE : ℚ := 1 / 1000

/-- The keyword arguments of the `ImageDataGenerator(...)` call. -/
structure ImageDataGeneratorConfig where
  rescale : ℚ
  rotationRange : Nat
  widthShiftRange : ℚ
  heightShiftRange : ℚ
  zoomRange : ℚ
  horizontalFlip : Bool
  validationSplit : ℚ
deriving DecidableEq, Repr

/-- The `datagen` generator (lines 36-44): rescale 1/255, rotation 15, shifts and zoom
0.1, no horizontal flip, validation split 0.2. -/
def datagen : ImageDataGeneratorConfig :=
  { rescale := 1 / 255, rotationRange := 15, widthShiftRange := 1 / 10,
    heightShiftRange := 1 / 10, zoomRange := 1 / 10, horizontalFlip := false,
    validationSplit := 1 / 5 }

/-- The keyword arguments of one `datagen.flow_from_directory(...)` call. -/
structure FlowConfig where
  directory : String
  targetH : Nat
  targetW : Nat
  batchSize : Nat
  classMode : String
  subset : String
  shuffle : Bool
deriving DecidableEq, Repr

/-- The `train_generator` flow (lines 47-54). -/
def train_generator : FlowConfig :=
  { directory := TRAINING_DATA_DIR, targetH := IMAGE_SIZE, targetW := IMAGE_SIZE,
    batchSize := BATCH_SIZE, classMode := "sparse", subset := "training",
    shuffle := true }

/-- The `validation_generator` flow (lines 57-64). -/
def validation_generator : FlowConfig :=
  { directory := TRAINING_DATA_DIR, targetH := IMAGE_SIZE, targetW := IMAGE_SIZE,
    batchSize := BATCH_SIZE, classMode := "sparse", subset := "validation",
    shuffle := false }

/-- One Keras layer as constructed by the script. -/
inductive Layer where
  | input (h w c : Nat)
  | conv2D (filters kh kw : Nat) (activation : String) (padding : String)
  | batchNormalization
  | maxPooling2D (ph pw : Nat)
  | dropout (rate : ℚ)
  | flatten
  | dense (units : Nat) (activation : String)
deriving DecidableEq, Repr

/-- The `keras.Sequential([...])` layer list (lines 73-95), with `num_classes`
detected from the dataset directories. -/
def model (num_classes : Nat) : List Layer :=
  [ .input IMAGE_SIZE IMAGE_SIZE 3,
    .conv2D 32 3 3 "relu" "same",
    .batchNormalization,
    .conv2D 32 3 3 "relu" "same",
    .maxPooling2D 2 2,
    .dropout (1 / 4),
    .conv2D 64 3 3 "relu" "same",
    .batchNormalization,
    .conv2D 64 3 3 "relu" "same",
    .maxPooling2D 2 2,
    .dropout (1 / 4),
    .flatten,
    .dense 256 "relu",
    .batchNormalization,
    .dropout (1 / 2),
    .dense num_classes "softmax" ]

/-- A Keras callback as constructed by the script. -/
inductive Callback where
  | reduceLROnPlateau (monitor : String) (factor : ℚ) (patience : Nat)
      (verbose : Nat) (minLr : ℚ)
  | earlyStopping (monitor : String) (patience : Nat)
      (restoreBestWeights : Bool) (verbose : Nat)
deriving DecidableEq, Repr

/-- The `callbacks` list (lines 110-124). -/
def callbacks : List Callback :=
  [ .reduceLROnPlateau "val_loss" (1 / 2) 3 1 (1 / 100000),
    .earlyStopping "val_accuracy" 5 true 1 ]

/-- One observable library call of the script. -/
inductive TrainStep where
  | flowFromDirectory (gen : ImageDataGeneratorConfig) (flow : FlowConfig)
  | buildModel (layers : List Layer)
  | compileModel (optimizer : String) (learningRate : ℚ) (loss : String)
      (metrics : List String)
  | fit (epochs : Nat) (cbs : List Callback)
  | tfliteConvert (optimizations : List String)
  | writeFile (path : String)
  | copyFile (src dst : String)
deriving DecidableEq, Repr

/-- The straight-line trace of the script after the `trainingdata`
existence check succeeds, with `num_classes` detected classes. -/
def trainSteps (num_classes : Nat) : List TrainStep :=
  [ .flowFromDirectory datagen train_generator,
    .flowFromDirectory datagen validation_generator,
    .buildModel (model num_classes),
    .compileModel "adam" LEARNING_RATE "sparse_categorical_crossentropy"
      ["accuracy"],
    .fit EPOCHS callbacks,
    .tfliteConvert ["DEFAULT"],
    .writeFile "fine_tuned_model.tflite",
    .copyFile "fine_tuned_model.tflite" "assets/model.tflite" ]

/-- The whole script: `exit(1)` when `trainingdata` is missing (no library
call happens), otherwise the trace runs to completion. -/
def runTrainScript (dataDirExists : Bool) (num_classes : Nat) :
    Option (List TrainStep) :=
  match dataDirExists with
  | false => none
  | true => some (trainSteps num_classes)

/-- C5.  Mobile export: every successful run converts the fitted model to
TFLite with default optimizations and writes the result to
`fine_tuned_model.tflite`, after `model.fit` has completed. -/
theorem mobile_export_c5 (ex : Bool) (n : Nat) (steps : List TrainStep)
    (h : runTrainScript ex n = some steps) :
    ∃ pre post, steps = pre ++
        [TrainStep.tfliteConvert ["DEFAULT"],
         TrainStep.writeFile "fine_tuned_model.tflite"] ++ post ∧
      TrainStep.fit EPOCHS callbacks ∈ pre := by
  cases ex with
  | false => simp [runTrainScript] at h
  | true =>
    have hsteps : steps = trainSteps n := by
      simpa [runTrainScript] using h.symm
    subst hsteps
    refine ⟨[.flowFromDirectory datagen train_generator,
      .flowFromDirectory datagen validation_generator,
      .buildModel (model n),
      .compileModel "adam" LEARNING_RATE "sparse_categorical_crossentropy"
        ["accuracy"],
      .fit EPOCHS callbacks],
      [.copyFile "fine_tuned_model.tflite" "assets/model.tflite"], rfl, ?_⟩
    simp

theorem mobile_export_c5_witness :
    (runTrainScript true 3 = some (trainSteps 3)) ∧
    ∃ pre post, trainSteps 3 = pre ++
        [TrainStep.tfliteConvert ["DEFAULT"],
         TrainStep.writeFile "fine_tuned_model.tflite"] ++ post ∧
      TrainStep.fit EPOCHS callbacks ∈ pre :=
  ⟨rfl, mobile_export_c5 true 3 (trainSteps 3) rfl⟩

/-- C6.  Fixed topology: the layer list is the same on every run except
for the final dense layer, whose width is the detected class count. -/
theorem fixed_topology_c6 (n : Nat) :
    model n =
      [ Layer.input 32 32 3,
        Layer.conv2D 32 3 3 "relu" "same",
        Layer.batchNormalization,
        Layer.conv2D 32 3 3 "relu" "same",
        Layer.maxPooling2D 2 2,
        Layer.dropout (1 / 4),
        Layer.conv2D 64 3 3 "relu" "same",
        Layer.batchNormalization,
        Layer.conv2D 64 3 3 "relu" "same",
        Layer.maxPooling2D 2 2,
        Layer.dropout (1 / 4),
        Layer.flatten,
        Layer.dense 256 "relu",
        Layer.batchNormalization,
        Layer.dropout (1 / 2),
        Layer.dense n "softmax" ] ∧
    (model n).dropLast = (model 0).dropLast :=
  ⟨rfl, rfl⟩

/-- C7.  Callbacks and epoch limit: `model.fit` is called exactly once,
with `epochs = 50` and precisely the two callbacks
`ReduceLROnPlateau(val_loss, 0.5, 3, min_lr 1e-5)` and
`EarlyStopping(val_accuracy, 5, restore_best_weights)`. -/
theorem callbacks_epochs_c7 (ex : Bool) (n : Nat) (steps : List TrainStep)
    (h : runTrainScript ex n = some steps) :
    (TrainStep.fit 50
      [Callback.reduceLROnPlateau "val_loss" (1 / 2) 3 1 (1 / 100000),
       Callback.earlyStopping "val_accuracy" 5 true 1] ∈ steps) ∧
    ∀ e cbs, TrainStep.fit e cbs ∈ steps → e = 50 ∧
      cbs = [Callback.reduceLROnPlateau "val_loss" (1 / 2) 3 1 (1 / 100000),
             Callback.earlyStopping "val_accuracy" 5 true 1] := by
  cases ex with
  | false => simp [runTrainScript] at h
  | true =>
    have hsteps : steps = trainSteps n := by
      simpa [runTrainScript] using h.symm
    subst hsteps
    constructor
    · simp [trainSteps, EPOCHS, callbacks]
    · intro e cbs hmem
      simp only [trainSteps, List.mem_cons, List.not_mem_nil, or_false] at hmem
      rcases hmem with h | h | h | h | h | h | h | h <;>
        first
          | (injection h with h1 h2; exact ⟨h1, h2⟩)
          | injection h

theorem callbacks_epochs_c7_witness :
    (runTrainScript true 3 = some (trainSteps 3)) ∧
    ((TrainStep.fit 50
      [Callback.reduceLROnPlateau "val_loss" (1 / 2) 3 1 (1 / 100000),
       Callback.earlyStopping "val_accuracy" 5 true 1] ∈ trainSteps 3) ∧
    ∀ e cbs, TrainStep.fit e cbs ∈ trainSteps 3 → e = 50 ∧
      cbs = [Callback.reduceLROnPlateau "val_loss" (1 / 2) 3 1 (1 / 100000),
             Callback.earlyStopping "val_accuracy" 5 true 1]) :=
  ⟨rfl, callbacks_epochs_c7 true 3 (trainSteps 3) rfl⟩

/-- C8.  One augmentation generator feeds both flows: rescale 1/255,
rotation 15, shifts and zoom 0.1, no horizontal flip, validation split
0.2, with the training subset shuffled and the validation subset not,
both reading the same directory at 32×32, sparse labels, batch 32. -/
theorem augmentation_c8 :
    datagen = ⟨1 / 255, 15, 1 / 10, 1 / 10, 1 / 10, false, 1 / 5⟩ ∧
    train_generator = ⟨"trainingdata", 32, 32, 32, "sparse", "training", true⟩ ∧
    validation_generator =
      ⟨"trainingdata", 32, 32, 32, "sparse", "validation", false⟩ ∧
    train_generator.directory = validation_generator.directory ∧
    (∀ n, TrainStep.flowFromDirectory datagen train_generator ∈ trainSteps n ∧
      TrainStep.flowFromDirectory datagen validation_generator ∈ trainSteps n) :=
  ⟨rfl, rfl, rfl, rfl, fun n => ⟨by simp [trainSteps], by simp [trainSteps]⟩⟩

end Train

end SignLanguage
